import Mathlib

/-!
Shallow embedding of `src/main.py` (a GCP budget-notification handler that
caps project costs by disabling billing).  External services are modelled
as explicit values: Firestore as a `Store` record (the per-project ledger
document plus the append-only audit collection), the Cloud Billing API as
the two response dicts the code inspects.  Python dicts are ordered
association lists; JSON numbers are rationals.
-/

/-- JSON-like values appearing in notification payloads and API responses. -/
inductive JVal : Type
  | num (q : Rat)
  | str (s : String)
  | bool (b : Bool)
  | null
deriving DecidableEq, Repr

/-- Python truthiness of a JSON value (`if not x` semantics). -/
def jtruthy : JVal → Bool
  | .num q => decide (q ≠ 0)
  | .str s => decide (s ≠ "")
  | .bool b => b
  | .null => false

/-- Lookup in a Python dict modelled as an ordered association list. -/
def alGet {α β : Type} [DecidableEq α] (d : List (α × β)) (k : α) : Option β :=
  match d with
  | [] => none
  | (k1, v1) :: t => if k1 = k then some v1 else alGet t k

/-- Python dict assignment `d[k] = v`: overwrite in place if the key is
present, otherwise append at the end (insertion order). -/
def alSet {α β : Type} [DecidableEq α] (d : List (α × β)) (k : α) (v : β) :
    List (α × β) :=
  match d with
  | [] => [(k, v)]
  | (k1, v1) :: t => if k1 = k then (k, v) :: t else (k1, v1) :: alSet t k v

/-- The keys of a dict, in order. -/
def keysOf {α β : Type} (d : List (α × β)) : List α := d.map Prod.fst

/-- A decoded notification payload: a JSON object. -/
abbrev Dict := List (String × JVal)

/-- The per-project cost ledger document: `costIntervalStart` value ↦ last
stored `costAmount`. -/
abbrev Ledger := List (JVal × Rat)

/-- The four fields `handle_budgets_notifications` reads from the payload
(lines 23, 26, 30-32 of `main.py`). -/
structure Notif where
  budget_project_id : JVal
  budget : Rat
  cost : Rat
  interval_start : JVal
deriving DecidableEq, Repr

/-- Numeric view of a JSON value. -/
def asNum : JVal → Option Rat
  | .num q => some q
  | _ => none

/-- Field extraction performed by the handler before any external call:
`budgetDisplayName`, `budgetAmount`, `costAmount`, `costIntervalStart`.
A missing field (or a non-numeric amount, per the payload schema of the
spec) is a malformed input. -/
def decodeNotif (d : Dict) : Option Notif :=
  match alGet d "budgetDisplayName" with
  | none => none
  | some pid =>
    match (alGet d "budgetAmount").bind asNum with
    | none => none
    | some budget =>
      match (alGet d "costAmount").bind asNum with
      | none => none
      | some cost =>
        match alGet d "costIntervalStart" with
        | none => none
        | some k => some ⟨pid, budget, cost, k⟩

/-- Error kinds of the handler (spec §7); in the source these are the
raised Python exceptions. -/
inductive HandlerError : Type
  | malformedInput
  | billingAlreadyDisabled
  | billingControlFailure
deriving DecidableEq, Repr

/-- `__is_billing_enabled` (main.py lines 85-98): an empty `getBillingInfo`
response, or one lacking the `billingEnabled` field, yields `False`;
otherwise the stored field value is returned unchanged. -/
def is_billing_enabled (billing_info : Dict) : JVal :=
  if billing_info.isEmpty then .bool false
  else
    match alGet billing_info "billingEnabled" with
    | none => .bool false
    | some v => v

/-- `__get_costs_per_interval_starts_dict` (main.py lines 101-119), ledger
part: if the fetched ledger document is truthy (exists and non-empty) the
entry at the notification's `costIntervalStart` is overwritten/inserted,
otherwise a fresh one-entry dict is built. -/
def get_costs_per_interval_starts_dict (fetched : Option Ledger) (k : JVal)
    (cost : Rat) : Ledger :=
  match fetched with
  | none => [(k, cost)]
  | some lg => if lg.isEmpty then [(k, cost)] else alSet lg k cost

/-- `__disable_billing_for_project` (main.py lines 122-133): after the
`updateBillingInfo` call the code asserts `billingAccountName` is absent
from the response; a present key raises (`AssertionError`, spec error kind
BillingControlFailure). -/
def disable_billing_for_project (update_resp : Dict) : Option HandlerError :=
  match alGet update_resp "billingAccountName" with
  | some _ => some .billingControlFailure
  | none => none

/-- The Firestore state for one project collection: the single ledger
document (`none` when it does not exist) and the audit documents. -/
structure Store where
  ledger : Option Ledger
  records : List Dict
deriving DecidableEq, Repr

/-- A Firestore batched write operation used by `__persist_data`. -/
inductive WriteOp : Type
  | setLedgerDoc (lg : Ledger)
  | addRecordDoc (r : Dict)
deriving DecidableEq, Repr

/-- Effect of one write operation on the store. -/
def applyOp (st : Store) : WriteOp → Store
  | .setLedgerDoc lg => { st with ledger := some lg }
  | .addRecordDoc r => { st with records := st.records ++ [r] }

/-- `batch.commit()`: all operations of the batch are applied as one unit
(the atomicity of a Firestore batch itself is the store's contract, spec
§2/§4.2). -/
def batch_commit (st : Store) (b : List WriteOp) : Store := b.foldl applyOp st

/-- The batch `__persist_data` builds (main.py lines 146-150): one `set` of
the ledger document and one `set` of a fresh audit document. -/
def persist_batch (lg : Ledger) (r : Dict) : List WriteOp :=
  [WriteOp.setLedgerDoc lg, WriteOp.addRecordDoc r]

/-- `__persist_data` (main.py lines 136-151): commit the two writes in a
single batch. -/
def persist_data (st : Store) (lg : Ledger) (r : Dict) : Store :=
  batch_commit st (persist_batch lg r)

/-- Sum of all values currently in the ledger (main.py line 52). -/
def totalOf (lg : Ledger) : Rat := (lg.map Prod.snd).sum

/-- The external world of one invocation: the `getBillingInfo` response,
the `updateBillingInfo` response, and the `datetime.now().isoformat()`
timestamp. -/
structure Env where
  billing_info : Dict
  update_resp : Dict
  now : String
deriving DecidableEq, Repr

/-- Observable outcome of one invocation: final store state, number of
`updateBillingInfo` (billing-disable) calls made, and the raised error if
any. -/
structure RunResult where
  store : Store
  disable_calls : Nat
  error : Option HandlerError
deriving DecidableEq, Repr

/-- `__handle_billing_depending_on_total` (main.py lines 167-183): below
budget nothing happens; otherwise billing disabling is invoked once (and
may itself fail on its post-condition assert). Returns the number of
disable invocations and the error, if any. -/
def handle_billing_depending_on_total (env : Env) (budget total : Rat) :
    Nat × Option HandlerError :=
  if total < budget then (0, none)
  else (1, disable_billing_for_project env.update_resp)

/-- Body of `handle_budgets_notifications` after field extraction (main.py
lines 40-58): billing check, `addedAt` stamping, ledger fetch-and-update,
batched persistence, total computation, disable decision. -/
def handleDecoded (env : Env) (st : Store) (payload : Dict) (n : Notif) :
    RunResult :=
  if jtruthy (is_billing_enabled env.billing_info) = false then
    ⟨st, 0, some HandlerError.billingAlreadyDisabled⟩
  else
    let stamped := alSet payload "addedAt" (JVal.str env.now)
    let lg := get_costs_per_interval_starts_dict st.ledger n.interval_start n.cost
    let st1 := persist_data st lg stamped
    let dc := handle_billing_depending_on_total env n.budget (totalOf lg)
    ⟨st1, dc.1, dc.2⟩

/-- `handle_budgets_notifications` (main.py lines 10-58).  `decoded` is the
result of the base64 + JSON decode of the event payload, `none` when that
decode raised. -/
def handle_budgets_notifications (env : Env) (st : Store)
    (decoded : Option Dict) : RunResult :=
  match decoded with
  | none => ⟨st, 0, some HandlerError.malformedInput⟩
  | some payload =>
    match decodeNotif payload with
    | none => ⟨st, 0, some HandlerError.malformedInput⟩
    | some n => handleDecoded env st payload n

/-- Most recent value carried for key `k` in a sequence of
(interval-start, cost) pairs, if any. -/
def lastVal (ns : List (JVal × Rat)) (k : JVal) : Option Rat :=
  match ns with
  | [] => none
  | (k1, v) :: t =>
    match lastVal t k with
    | some w => some w
    | none => if k1 = k then some v else none

/-- Successive dict assignments. -/
def applySeq (lg : Ledger) (ns : List (JVal × Rat)) : Ledger :=
  ns.foldl (fun l kv => alSet l kv.1 kv.2) lg

/-- The ledger-update steps of a whole sequence of processed notifications
for one project, starting from a non-existent ledger document. -/
def processAll (o : Option Ledger) (ns : List (JVal × Rat)) : Option Ledger :=
  ns.foldl (fun o1 kv => some (get_costs_per_interval_starts_dict o1 kv.1 kv.2)) o

/-- Ledger document after a sequence of processed notifications. -/
def ledger_after (ns : List (JVal × Rat)) : Ledger :=
  (processAll none ns).getD []

/-! ### Association-list lemmas -/

theorem alGet_alSet_self {α β : Type} [DecidableEq α] (d : List (α × β))
    (k : α) (v : β) : alGet (alSet d k v) k = some v := by
  induction d with
  | nil => simp [alSet, alGet]
  | cons hd t ih =>
    obtain ⟨k1, v1⟩ := hd
    by_cases hk : k1 = k
    · subst hk; simp [alSet, alGet]
    · simp [alSet, alGet, hk, ih]

theorem alGet_alSet_ne {α β : Type} [DecidableEq α] (d : List (α × β))
    (k k1 : α) (v : β) (hne : k1 ≠ k) : alGet (alSet d k v) k1 = alGet d k1 := by
  induction d with
  | nil => simp [alSet, alGet, Ne.symm hne]
  | cons hd t ih =>
    obtain ⟨k2, v2⟩ := hd
    by_cases hk : k2 = k
    · subst hk
      simp [alSet, alGet, Ne.symm hne]
    · by_cases hq : k2 = k1
      · subst hq; simp [alSet, alGet, hk]
      · simp [alSet, alGet, hk, hq, ih]

theorem mem_keysOf_alSet {α β : Type} [DecidableEq α] (d : List (α × β))
    (k a : α) (v : β) : a ∈ keysOf (alSet d k v) ↔ a ∈ keysOf d ∨ a = k := by
  induction d with
  | nil => simp [alSet, keysOf]
  | cons hd t ih =>
    obtain ⟨k2, v2⟩ := hd
    by_cases hk : k2 = k
    · subst hk
      simp [alSet, keysOf]
      tauto
    · simp [alSet, keysOf, hk] at ih ⊢
      tauto

theorem alSet_ne_nil {α β : Type} [DecidableEq α] (d : List (α × β))
    (k : α) (v : β) : alSet d k v ≠ [] := by
  cases d with
  | nil => simp [alSet]
  | cons hd t =>
    obtain ⟨k2, v2⟩ := hd
    by_cases hk : k2 = k <;> simp [alSet, hk]

theorem get_costs_eq_alSet (o : Option Ledger) (k : JVal) (v : Rat) :
    get_costs_per_interval_starts_dict o k v = alSet (o.getD []) k v := by
  cases o with
  | none => rfl
  | some lg => cases lg with
    | nil => rfl
    | cons h t => rfl

theorem alGet_applySeq (ns : List (JVal × Rat)) (lg : Ledger) (k : JVal) :
    alGet (applySeq lg ns) k =
      match lastVal ns k with
      | some w => some w
      | none => alGet lg k := by
  induction ns generalizing lg with
  | nil => simp [applySeq, lastVal]
  | cons hd t ih =>
    obtain ⟨k1, v⟩ := hd
    show alGet (applySeq (alSet lg k1 v) t) k = _
    rw [ih]
    cases h : lastVal t k with
    | some w => simp [lastVal, h]
    | none =>
      simp only [lastVal, h]
      by_cases hk : k1 = k
      · subst hk; simp [alGet_alSet_self]
      · simp [hk, alGet_alSet_ne lg k1 k v (Ne.symm hk)]

theorem processAll_some (ns : List (JVal × Rat)) (lg : Ledger) :
    processAll (some lg) ns = some (applySeq lg ns) := by
  induction ns generalizing lg with
  | nil => rfl
  | cons hd t ih =>
    obtain ⟨k, v⟩ := hd
    show processAll (some (get_costs_per_interval_starts_dict (some lg) k v)) t = _
    rw [get_costs_eq_alSet]
    exact ih (alSet lg k v)

theorem alGet_ledger_after (ns : List (JVal × Rat)) (k : JVal) :
    alGet (ledger_after ns) k = lastVal ns k := by
  cases ns with
  | nil => rfl
  | cons hd t =>
    obtain ⟨k1, v⟩ := hd
    show alGet ((processAll (some (get_costs_per_interval_starts_dict none k1 v)) t).getD []) k = _
    rw [processAll_some]
    show alGet (applySeq [(k1, v)] t) k = _
    rw [alGet_applySeq]
    cases h : lastVal t k with
    | some w => simp [lastVal, h]
    | none =>
      simp only [lastVal, h]
      by_cases hk : k1 = k <;> simp [alGet, hk]

/-! ### Concrete inputs (spec §8 scenarios) used by the witnesses -/

/-- A `getBillingInfo` response confirming billing enabled. -/
def envOn : Env := ⟨[("billingEnabled", JVal.bool true)], [], "T"⟩

/-- A `getBillingInfo` response reporting billing disabled. -/
def envOff : Env := ⟨[("billingEnabled", JVal.bool false)], [], "T"⟩

/-- A project with no prior ledger document and no audit records. -/
def st0 : Store := ⟨none, []⟩

/-- Scenario 1 payload: budget 100, cost 40, interval 2024-01. -/
def p1 : Dict :=
  [("budgetDisplayName", JVal.str "p1"), ("budgetAmount", JVal.num 100),
   ("costAmount", JVal.num 40), ("costIntervalStart", JVal.str "2024-01")]

/-- The decoded form of `p1`. -/
def n1 : Notif := ⟨JVal.str "p1", 100, 40, JVal.str "2024-01"⟩

/-- Scenario 5 payload: `costIntervalStart` missing. -/
def p_missing : Dict :=
  [("budgetDisplayName", JVal.str "p1"), ("budgetAmount", JVal.num 100),
   ("costAmount", JVal.num 40)]

/-- A payload that already carries an `addedAt` field. -/
def p9 : Dict :=
  [("budgetDisplayName", JVal.str "p1"), ("budgetAmount", JVal.num 100),
   ("costAmount", JVal.num 40), ("costIntervalStart", JVal.str "2024-01"),
   ("addedAt", JVal.str "2024-01-05T00:00:00")]

/-! ### Claim theorems -/

/-- C1: for a notification processed past the billing check, billing
disabling is never invoked when the persisted total is below the budget,
and is invoked exactly once when the total reaches or exceeds the budget
(the equality case triggers disabling). -/
theorem c1_disable_decision (env : Env) (st : Store) (payload : Dict)
    (n : Notif) (hdec : decodeNotif payload = some n)
    (hb : jtruthy (is_billing_enabled env.billing_info) = true) :
    (totalOf (get_costs_per_interval_starts_dict st.ledger n.interval_start n.cost)
        < n.budget →
      (handle_budgets_notifications env st (some payload)).disable_calls = 0) ∧
    (n.budget ≤
        totalOf (get_costs_per_interval_starts_dict st.ledger n.interval_start n.cost) →
      (handle_budgets_notifications env st (some payload)).disable_calls = 1) ∧
    (totalOf (get_costs_per_interval_starts_dict st.ledger n.interval_start n.cost)
        = n.budget →
      (handle_budgets_notifications env st (some payload)).disable_calls = 1) := by
  simp only [handle_budgets_notifications, hdec, handleDecoded, hb,
    Bool.true_eq_false, if_false]
  refine ⟨fun h => ?_, fun h => ?_, fun h => ?_⟩
  · simp [handle_billing_depending_on_total, h]
  · simp [handle_billing_depending_on_total, not_lt.mpr h]
  · simp [handle_billing_depending_on_total, h]

/-- C1 witness: scenario 1 (total 40 < budget 100, no disable call). -/
theorem c1_disable_decision_witness :
    (handle_budgets_notifications envOn st0 (some p1)).disable_calls = 0 :=
  (c1_disable_decision envOn st0 p1 n1 (by decide) (by decide)).1
    (by norm_num [st0, n1, totalOf, get_costs_per_interval_starts_dict])

/-- C2: the ledger-update step sets the entry at the notification's
interval start to its cost and leaves every other entry of the fetched
ledger (the empty map when the document is missing) unchanged; over any
sequence of processed notifications the resulting ledger maps each
interval start seen to the cost of the most recent notification carrying
it. -/
theorem c2_last_write_wins :
    (∀ (fetched : Option Ledger) (k : JVal) (v : Rat),
      alGet (get_costs_per_interval_starts_dict fetched k v) k = some v) ∧
    (∀ (fetched : Option Ledger) (k k1 : JVal) (v : Rat), k1 ≠ k →
      alGet (get_costs_per_interval_starts_dict fetched k v) k1 =
        alGet (fetched.getD []) k1) ∧
    (∀ (ns : List (JVal × Rat)) (k : JVal),
      alGet (ledger_after ns) k = lastVal ns k) := by
  refine ⟨fun fetched k v => ?_, fun fetched k k1 v h => ?_, alGet_ledger_after⟩
  · rw [get_costs_eq_alSet]; exact alGet_alSet_self _ _ _
  · rw [get_costs_eq_alSet]; exact alGet_alSet_ne _ _ _ _ h

/-- C2 witness: updating interval 2024-02 leaves the 2024-01 entry as
fetched. -/
theorem c2_last_write_wins_witness :
    alGet (get_costs_per_interval_starts_dict
        (some [(JVal.str "2024-01", (70 : Rat))]) (JVal.str "2024-02") 30)
      (JVal.str "2024-01") =
      alGet ((some [(JVal.str "2024-01", (70 : Rat))] : Option Ledger).getD [])
        (JVal.str "2024-01") :=
  c2_last_write_wins.2.1 (some [(JVal.str "2024-01", 70)]) (JVal.str "2024-02")
    (JVal.str "2024-01") 30 (by decide)

/-- C3: the total compared against the budget is the sum of all values of
the updated (and persisted) ledger — the most-recent cost of every
interval ever seen for the project — not only the current period's cost. -/
theorem c3_total_is_ledger_sum (env : Env) (st : Store) (payload : Dict)
    (n : Notif) (hdec : decodeNotif payload = some n)
    (hb : jtruthy (is_billing_enabled env.billing_info) = true) :
    (handle_budgets_notifications env st (some payload)).store.ledger =
      some (get_costs_per_interval_starts_dict st.ledger n.interval_start n.cost) ∧
    (handle_budgets_notifications env st (some payload)).disable_calls =
      (if totalOf (get_costs_per_interval_starts_dict st.ledger
          n.interval_start n.cost) < n.budget then 0 else 1) := by
  simp only [handle_budgets_notifications, hdec, handleDecoded, hb,
    Bool.true_eq_false, if_false]
  constructor
  · simp [persist_data, batch_commit, persist_batch, applyOp]
  · simp only [handle_billing_depending_on_total]
    split <;> rfl

/-- C3 witness: scenario 1 run, ledger persisted and below-budget
decision. -/
theorem c3_total_is_ledger_sum_witness :
    (handle_budgets_notifications envOn st0 (some p1)).store.ledger =
      some (get_costs_per_interval_starts_dict st0.ledger n1.interval_start
        n1.cost) :=
  (c3_total_is_ledger_sum envOn st0 p1 n1 (by decide) (by decide)).1

/-- C4: when the billing check does not confirm billing enabled, the
handler raises BillingAlreadyDisabled, performs no disable call, and the
store is unchanged. -/
theorem c4_billing_disabled_aborts (env : Env) (st : Store) (payload : Dict)
    (n : Notif) (hdec : decodeNotif payload = some n)
    (hb : jtruthy (is_billing_enabled env.billing_info) = false) :
    handle_budgets_notifications env st (some payload) =
      ⟨st, 0, some HandlerError.billingAlreadyDisabled⟩ := by
  simp [handle_budgets_notifications, hdec, handleDecoded, hb]

/-- C4 witness: scenario 4, billing reported disabled at entry. -/
theorem c4_billing_disabled_aborts_witness :
    handle_budgets_notifications envOff st0 (some p1) =
      ⟨st0, 0, some HandlerError.billingAlreadyDisabled⟩ :=
  c4_billing_disabled_aborts envOff st0 p1 n1 (by decide) (by decide)

/-- C5: the ledger write and the audit-record write are submitted as one
batch of exactly those two operations, committed by a single
`batch_commit`, whose application yields both effects together. -/
theorem c5_atomic_batch (st : Store) (lg : Ledger) (r : Dict) :
    persist_data st lg r = batch_commit st (persist_batch lg r) ∧
    persist_batch lg r = [WriteOp.setLedgerDoc lg, WriteOp.addRecordDoc r] ∧
    (persist_data st lg r).ledger = some lg ∧
    (persist_data st lg r).records = st.records ++ [r] :=
  ⟨rfl, rfl, rfl, rfl⟩

/-- C6: the billing-enabled check yields False for an empty response and
for a response lacking the billingEnabled field, and returns the reported
billingEnabled boolean otherwise. -/
theorem c6_is_billing_enabled_spec (info : Dict) :
    (info = [] → is_billing_enabled info = JVal.bool false) ∧
    (alGet info "billingEnabled" = none →
      is_billing_enabled info = JVal.bool false) ∧
    (∀ b : Bool, info ≠ [] → alGet info "billingEnabled" = some (JVal.bool b) →
      is_billing_enabled info = JVal.bool b) := by
  refine ⟨fun h => ?_, fun h => ?_, fun b hne h => ?_⟩
  · subst h; rfl
  · unfold is_billing_enabled
    rw [h]
    split <;> rfl
  · cases info with
    | nil => exact absurd rfl hne
    | cons hd t => simp [is_billing_enabled, h]

/-- C6 witness: an empty billing-info response yields False. -/
theorem c6_is_billing_enabled_spec_witness :
    is_billing_enabled [] = JVal.bool false :=
  (c6_is_billing_enabled_spec []).1 rfl

/-- C7: billing disabling raises whenever the response still carries a
billingAccountName (the unlink post-condition is not observed), and
returns without error only when that key is absent. -/
theorem c7_disable_postcondition (resp : Dict) :
    (∀ v : JVal, alGet resp "billingAccountName" = some v →
      disable_billing_for_project resp =
        some HandlerError.billingControlFailure) ∧
    (disable_billing_for_project resp = none →
      alGet resp "billingAccountName" = none) := by
  refine ⟨fun v h => ?_, fun h => ?_⟩
  · simp [disable_billing_for_project, h]
  · cases hx : alGet resp "billingAccountName" with
    | none => rfl
    | some v => simp [disable_billing_for_project, hx] at h

/-- C7 witness: a response still carrying a billing account fails the
assert. -/
theorem c7_disable_postcondition_witness :
    disable_billing_for_project
        [("billingAccountName", JVal.str "billingAccounts/X")] =
      some HandlerError.billingControlFailure :=
  (c7_disable_postcondition _).1 (JVal.str "billingAccounts/X") (by decide)

/-- C8: an undecodable payload, or one missing a required field such as
costIntervalStart, raises MalformedInput with the store unchanged and no
billing-disable call. -/
theorem c8_malformed_no_side_effects (env : Env) (st : Store) :
    (handle_budgets_notifications env st none =
      ⟨st, 0, some HandlerError.malformedInput⟩) ∧
    (∀ payload : Dict, decodeNotif payload = none →
      handle_budgets_notifications env st (some payload) =
        ⟨st, 0, some HandlerError.malformedInput⟩) ∧
    (∀ payload : Dict, alGet payload "costIntervalStart" = none →
      decodeNotif payload = none) := by
  refine ⟨rfl, fun payload h => ?_, fun payload h => ?_⟩
  · simp [handle_budgets_notifications, h]
  · unfold decodeNotif
    cases h1 : alGet payload "budgetDisplayName" with
    | none => rfl
    | some pid =>
      cases h2 : (alGet payload "budgetAmount").bind asNum with
      | none => rfl
      | some b =>
        cases h3 : (alGet payload "costAmount").bind asNum with
        | none => rfl
        | some c => rw [h]

/-- C8 witness: scenario 5, payload lacking costIntervalStart. -/
theorem c8_malformed_no_side_effects_witness :
    handle_budgets_notifications envOn st0 (some p_missing) =
      ⟨st0, 0, some HandlerError.malformedInput⟩ :=
  (c8_malformed_no_side_effects envOn st0).2.1 p_missing
    ((c8_malformed_no_side_effects envOn st0).2.2 p_missing (by decide))

/-- C9 counterexample: a payload that already carries an addedAt field is
processed without error, yet the persisted audit record adds no field (its
key set equals the payload's) and its addedAt value differs from the
original — so the record is not the payload extended with a single added
field with every original field unchanged. -/
theorem c9_audit_record_counterexample :
    (handle_budgets_notifications envOn st0 (some p9)).error = none ∧
    (handle_budgets_notifications envOn st0 (some p9)).store.records =
      [alSet p9 "addedAt" (JVal.str "T")] ∧
    keysOf (alSet p9 "addedAt" (JVal.str "T")) = keysOf p9 ∧
    alGet (alSet p9 "addedAt" (JVal.str "T")) "addedAt" ≠
      alGet p9 "addedAt" := by
  have hdec : decodeNotif p9 =
      some ⟨JVal.str "p1", 100, 40, JVal.str "2024-01"⟩ := by decide
  have hb : jtruthy (is_billing_enabled envOn.billing_info) = true := by decide
  have hlt : totalOf (get_costs_per_interval_starts_dict st0.ledger
      (JVal.str "2024-01") (40 : Rat)) < 100 := by
    norm_num [st0, totalOf, get_costs_per_interval_starts_dict]
  refine ⟨?_, ?_, by decide, by decide⟩
  · simp [handle_budgets_notifications, hdec, handleDecoded, hb,
      handle_billing_depending_on_total, hlt]
  · simp [handle_budgets_notifications, hdec, handleDecoded, envOn, jtruthy,
      is_billing_enabled, alGet, persist_data, batch_commit, persist_batch,
      applyOp, st0]

/-- C9 (amended): the persisted audit record is the decoded payload with
addedAt set to the handler timestamp — inserted when absent, overwritten
when already present; every field other than addedAt is stored unchanged,
and the record's key set is the payload's keys united with addedAt. -/
theorem c9_audit_record_amended (env : Env) (st : Store) (payload : Dict)
    (n : Notif) (hdec : decodeNotif payload = some n)
    (hb : jtruthy (is_billing_enabled env.billing_info) = true) :
    (handle_budgets_notifications env st (some payload)).store.records =
      st.records ++ [alSet payload "addedAt" (JVal.str env.now)] ∧
    alGet (alSet payload "addedAt" (JVal.str env.now)) "addedAt" =
      some (JVal.str env.now) ∧
    (∀ f : String, f ≠ "addedAt" →
      alGet (alSet payload "addedAt" (JVal.str env.now)) f = alGet payload f) ∧
    (∀ f : String, f ∈ keysOf (alSet payload "addedAt" (JVal.str env.now)) ↔
      f ∈ keysOf payload ∨ f = "addedAt") := by
  refine ⟨?_, alGet_alSet_self _ _ _, fun f hf => alGet_alSet_ne _ _ _ _ hf,
    fun f => mem_keysOf_alSet _ _ _ _⟩
  simp [handle_budgets_notifications, hdec, handleDecoded, hb, persist_data,
    batch_commit, persist_batch, applyOp]

/-- C9 witness: scenario 1 run, the stamped record is appended to the
audit collection. -/
theorem c9_audit_record_amended_witness :
    (handle_budgets_notifications envOn st0 (some p1)).store.records =
      st0.records ++ [alSet p1 "addedAt" (JVal.str envOn.now)] :=
  (c9_audit_record_amended envOn st0 p1 n1 (by decide) (by decide)).1

/-- C10: the updated ledger's key set is the fetched ledger's key set
united with the notification's interval start; in particular the updated
ledger contains the current interval and is never empty. -/
theorem c10_ledger_keys_grow (fetched : Option Ledger) (k : JVal) (v : Rat) :
    (∀ k1 : JVal, k1 ∈ keysOf (get_costs_per_interval_starts_dict fetched k v) ↔
      k1 ∈ keysOf (fetched.getD []) ∨ k1 = k) ∧
    k ∈ keysOf (get_costs_per_interval_starts_dict fetched k v) ∧
    get_costs_per_interval_starts_dict fetched k v ≠ [] := by
  rw [get_costs_eq_alSet]
  exact ⟨fun k1 => mem_keysOf_alSet _ _ _ _,
    (mem_keysOf_alSet _ _ _ _).mpr (Or.inr rfl), alSet_ne_nil _ _ _⟩

/-- C10 witness: after updating, the new interval is among the ledger
keys. -/
theorem c10_ledger_keys_grow_witness :
    JVal.str "2024-02" ∈ keysOf (get_costs_per_interval_starts_dict
      (some [(JVal.str "2024-01", (70 : Rat))]) (JVal.str "2024-02") 30) :=
  (c10_ledger_keys_grow (some [(JVal.str "2024-01", 70)])
    (JVal.str "2024-02") 30).2.1
